import Mathlib

/-!
# Verification of the locuszoom data-layer core

A shallow embedding, in Lean 4, of the data-layer state and
encoding-resolution engine of the locuszoom repository: the scale
resolver, the annotation store, the extent calculator, the element state
tracker, the layer ordering manager, and the `TabixUrlSource` adapter
(`src/esm/ext/lz-tabix-source.js`).

The base data-layer implementation itself is not shipped in this source
snapshot (only its unit tests, `src/test/unit/components/test_datalayer.js`,
and two subclasses are).  Those components are therefore modelled from the
specification, with the repository's own test assertions taken as the
authority wherever they pin concrete behavior.  JavaScript numbers are
modelled as rationals (`ℚ`); JavaScript's `null` and `undefined` are kept
as distinct values.
-/

set_option maxHeartbeats 1000000

namespace LZ

/-- A scalar JavaScript value, as stored in a data record or produced by a
scale function.  `undef` models JS `undefined`, `null` models JS `null`;
numbers are modelled as rationals. -/
inductive JsVal where
  | undef : JsVal
  | null : JsVal
  | bool : Bool → JsVal
  | num : ℚ → JsVal
  | str : String → JsVal
  deriving DecidableEq

/-- A data record: an opaque mapping from field name to scalar value
(spec §3 "Record").  Modelled as an association list. -/
def Record : Type := List (String × JsVal)

instance : DecidableEq Record := by
  unfold Record
  infer_instance

/-- JS property read `record[field]`: the stored value, or `undefined`
when the field is absent. -/
def recordGet (r : Record) (f : String) : JsVal :=
  match List.lookup f r with
  | some v => v
  | none => JsVal.undef

/-- `true` exactly for JS `null` / `undefined` (the values that make a
scalable-parameter list continue to its next entry). -/
def isNil : JsVal → Bool
  | JsVal.undef => true
  | JsVal.null => true
  | _ => false

/-- Best-effort string coercion, as used for element identities
(spec §3 "Element Identity": identity is a string; unresolvable inputs
fall back to a stringified form rather than throwing, spec §4.3). -/
def stringify : JsVal → String
  | JsVal.undef => "undefined"
  | JsVal.null => "null"
  | JsVal.bool true => "true"
  | JsVal.bool false => "false"
  | JsVal.num q => toString q
  | JsVal.str s => s

/-- The input handed to a scale function: either a single field value, or
the whole record when the rule names no field (spec §4.1). -/
inductive ScaleInput where
  | val : JsVal → ScaleInput
  | whole : Record → ScaleInput
  deriving DecidableEq

/-- A registered scale function `(parameters, input, index) → value|null`
(spec §3): the opaque `parameters` configuration is modelled as a record. -/
def ScaleFn : Type := Record → ScaleInput → Nat → JsVal

/-- The error kinds of the engine (spec §7): `config` for malformed
layout/configuration input, `usage` for API misuse. -/
inductive LzError where
  | config : String → LzError
  | usage : String → LzError
  deriving DecidableEq

instance exceptDecEq {ε α : Type} [DecidableEq ε] [DecidableEq α] :
    DecidableEq (Except ε α) := fun x y =>
  match x, y with
  | Except.ok a, Except.ok b =>
    if h : a = b then isTrue (by rw [h])
    else isFalse (by intro hh; cases hh; exact h rfl)
  | Except.error a, Except.error b =>
    if h : a = b then isTrue (by rw [h])
    else isFalse (by intro hh; cases hh; exact h rfl)
  | Except.ok _, Except.error _ => isFalse (by intro h; cases h)
  | Except.error _, Except.ok _ => isFalse (by intro h; cases h)

/-- Modelled from the spec: a data layer, holding the pieces that scalable
parameter resolution consults — the layout's `id_field`, the layer's
annotation store (element identity → field → value, spec §3 "Annotation
Entry"), and the process-wide scale-function registry (spec §3), here
carried explicitly per the spec's §9 design note. -/
structure Layer where
  id_field : String
  annotations : List (String × Record)
  registry : String → Option ScaleFn

/-- Modelled from the spec: element identity, derived by applying the
layout's `id_field` to a record and stringifying (spec §3, §6
`getElementId`). -/
def getElementId (L : Layer) (r : Record) : String :=
  stringify (recordGet r L.id_field)

/-- The annotation store consulted as a secondary field namespace: the
stored value for this identity and field, or `undefined` when no
annotation entry exists (spec §4.1). -/
def annotFieldGet (L : Layer) (id : String) (f : String) : JsVal :=
  match List.lookup id L.annotations with
  | none => JsVal.undef
  | some ann => recordGet ann f

/-- Modelled from the spec: `setElementAnnotation` (spec §4.4 / §6) —
record a key/value annotation for one element identity in the layer's
store.  (Named `setElementAnnot` here.) -/
def setElementAnnot (L : Layer) (id : String) (key : String) (v : JsVal) : Layer :=
  let old := match List.lookup id L.annotations with
    | none => []
    | some ann => ann
  { L with annotations := (id, (key, v) :: old) :: L.annotations }

/-- Modelled from the spec: `getElementAnnotation` (spec §4.4 / §6) —
`null`, not `undefined`, when no annotation is present. -/
def getElementAnnot (L : Layer) (id : String) (key : String) : JsVal :=
  match List.lookup id L.annotations with
  | none => JsVal.null
  | some ann =>
    match List.lookup key ann with
    | none => JsVal.null
    | some v => v

/-- Modelled from the spec: field lookup during resolution (spec §4.1):
consult the record's own fields first; only when the referenced field is
`undefined` on the record fall back to the layer's annotation-store entry
for that record's identity. -/
def fieldLookup (L : Layer) (r : Record) (f : String) : JsVal :=
  match recordGet r f with
  | JsVal.undef => annotFieldGet L (getElementId L r) f
  | v => v

/-- One entry of a scalable-parameter spec: a literal primitive, or a rule
`{scale_function, field?, parameters}` (spec §3 "Scalable Parameter
Spec", modelled as a tagged variant per the §9 design note). -/
inductive ScaleEntry where
  | lit : JsVal → ScaleEntry
  | rule : String → Option String → Record → ScaleEntry

/-- A scalable-parameter spec: a single literal/rule, or an ordered list
of literals and rules (spec §3). -/
inductive ScaleSpec where
  | entry : ScaleEntry → ScaleSpec
  | listSpec : List ScaleEntry → ScaleSpec

/-- Modelled from the spec: resolution of a single (non-list) scalable
parameter entry (spec §4.1).  A literal resolves to itself; a rule looks
its `scale_function` up in the registry (`ConfigError` when absent),
builds its input from the named field — via `fieldLookup`, so annotations
act as fallback — or from the whole record, and returns the function's
result verbatim. -/
def resolveEntry (L : Layer) (e : ScaleEntry) (r : Record) (idx : Nat) :
    Except LzError JsVal :=
  match e with
  | ScaleEntry.lit v => Except.ok v
  | ScaleEntry.rule name field params =>
    match L.registry name with
    | none => Except.error (LzError.config ("Unable to find scale function: " ++ name))
    | some f =>
      let input : ScaleInput :=
        match field with
        | some fld => ScaleInput.val (fieldLookup L r fld)
        | none => ScaleInput.whole r
      Except.ok (f params input idx)

/-- Modelled from the spec: left-to-right resolution of an ordered list of
scalable-parameter entries — return the first non-`null`/`undefined`
result; `undefined` when exhausted (spec §4.1). -/
def resolveList (L : Layer) (es : List ScaleEntry) (r : Record) (idx : Nat) :
    Except LzError JsVal :=
  match es with
  | [] => Except.ok JsVal.undef
  | e :: rest =>
    match resolveEntry L e r idx with
    | Except.error err => Except.error err
    | Except.ok v =>
      if isNil v then resolveList L rest r idx else Except.ok v

/-- Modelled from the spec: `resolveScalableParameter(spec, record, index)`
(spec §4.1 / §6). -/
def resolveScalableParameter (L : Layer) (spec : ScaleSpec) (r : Record) (idx : Nat) :
    Except LzError JsVal :=
  match spec with
  | ScaleSpec.entry e => resolveEntry L e r idx
  | ScaleSpec.listSpec es => resolveList L es r idx

/-! ## Extent calculator (spec §4.2) -/

/-- An axis configuration from the layout: `field`, buffers (fractions of
the raw data range, default 0), `min_extent`, and hard `floor`/`ceiling`
clamps (spec §4.2, §6). -/
structure AxisConfig where
  field : Option String
  lower_buffer : Option ℚ
  upper_buffer : Option ℚ
  min_extent : Option (ℚ × ℚ)
  floor : Option ℚ
  ceiling : Option ℚ
  deriving DecidableEq

/-- The result of extent computation (spec §3 "Extent"): a `[min, max]`
pair, or `[undefined, undefined]` when the field is non-numeric across
the records (`nonNumeric`), or `[]` when the data set is empty and no
minimum extent is configured (`empty`). -/
inductive Extent where
  | empty : Extent
  | nonNumeric : Extent
  | range : ℚ → ℚ → Extent
  deriving DecidableEq

/-- Modelled from the spec: the layer pieces that `getAxisExtent`
consults — the axis configurations for the supported axes `x`, `y1`,
`y2`, and the layer's current record list (spec §4.2, §6). -/
structure ExtentLayer where
  x_axis : Option AxisConfig
  y1_axis : Option AxisConfig
  y2_axis : Option AxisConfig
  data : List Record

/-- The axis configuration, if any, that a (valid) axis identifier names. -/
def axisConfigOf (L : ExtentLayer) (a : String) : Option AxisConfig :=
  if a = "x" then L.x_axis
  else if a = "y1" then L.y1_axis
  else if a = "y2" then L.y2_axis
  else none

/-- `some qs` when every extracted value is numeric; `none` as soon as any
value is non-numeric ("string categories etc.", spec §4.2 step 3). -/
def allNums : List JsVal → Option (List ℚ)
  | [] => some []
  | JsVal.num q :: rest =>
    match allNums rest with
    | some qs => some (q :: qs)
    | none => none
  | _ :: _ => none

/-- Minimum of two rationals, computed through the executable comparison
`Rat.blt` so that concrete extents evaluate inside the kernel;
`rmin_eq` identifies it with `min`. -/
def rmin (a b : ℚ) : ℚ := if Rat.blt a b then a else b

/-- Maximum of two rationals through `Rat.blt`; `rmax_eq` identifies it
with `max`. -/
def rmax (a b : ℚ) : ℚ := if Rat.blt a b then b else a

theorem rmin_eq (a b : ℚ) : rmin a b = min a b := by
  unfold rmin
  by_cases h : a < b
  · have hb : Rat.blt a b = true := h
    rw [if_pos hb, min_eq_left h.le]
  · have hb : ¬(Rat.blt a b = true) := h
    rw [if_neg hb, min_eq_right (not_lt.mp h)]

theorem rmax_eq (a b : ℚ) : rmax a b = max a b := by
  unfold rmax
  by_cases h : a < b
  · have hb : Rat.blt a b = true := h
    rw [if_pos hb, max_eq_right h.le]
  · have hb : ¬(Rat.blt a b = true) := h
    rw [if_neg hb, max_eq_left (not_lt.mp h)]

/-- Minimum of a list of rationals, with the head as the seed (used only
on non-empty lists). -/
def listMin : List ℚ → ℚ
  | [] => 0
  | q :: qs => qs.foldl rmin q

/-- Maximum of a list of rationals, with the head as the seed (used only
on non-empty lists). -/
def listMax : List ℚ → ℚ
  | [] => 0
  | q :: qs => qs.foldl rmax q

/-- Modelled from the spec: `lower_buffer`/`upper_buffer` applied as
fractions of the raw `data_max - data_min` range, default 0 (spec §4.2
step 4):
`(data_min - lower_buffer*range, data_max + upper_buffer*range)`. -/
def bufferedBounds (cfg : AxisConfig) (qs : List ℚ) : ℚ × ℚ :=
  let dmin := listMin qs
  let dmax := listMax qs
  let range := dmax - dmin
  (dmin - (cfg.lower_buffer.getD 0) * range, dmax + (cfg.upper_buffer.getD 0) * range)

/-- Modelled from the spec: `min_extent = [lo, hi]` widening (spec §4.2
step 5): `final_min = min(min, lo)`, `final_max = max(max, hi)`. -/
def applyMinExtent (cfg : AxisConfig) (p : ℚ × ℚ) : ℚ × ℚ :=
  match cfg.min_extent with
  | none => p
  | some (lo, hi) => (rmin p.1 lo, rmax p.2 hi)

/-- Modelled from the spec: the hard `floor`/`ceiling` bounds, applied
last on a numeric extent (spec §4.2 step 6); the non-numeric and empty
extents are untouched.  The spec words step 6 as a `max`/`min` clamp, but
the repository's own test (`test_datalayer.js` 331–345: data
`[8, 9, 8, 8.5]`, `min_extent = [6, 10]`, `lower_buffer = 0.5`,
`floor = 0` must give `[0, 10]`, where a clamp would give `[6, 10]`)
pins override semantics: a configured floor/ceiling replaces the bound
outright. -/
def applyFloorCeil (cfg : AxisConfig) : Extent → Extent
  | Extent.range m M =>
    let m' := match cfg.floor with
      | some fl => fl
      | none => m
    let M' := match cfg.ceiling with
      | some ce => ce
      | none => M
    Extent.range m' M'
  | e => e

/-- Modelled from the spec: `getAxisExtent(axisId)` (spec §4.2, §6).
Validates the axis identifier and configured field (`ConfigError`
otherwise); empty data uses only `min_extent` (`[]` when none is
configured); any non-numeric value degrades to `[undefined, undefined]`
with buffering/widening/clamping skipped; otherwise buffers, then
`min_extent` widening, then the `floor`/`ceiling` clamps, in that order. -/
def getAxisExtent (L : ExtentLayer) (axis : Option String) : Except LzError Extent :=
  match axis with
  | none => Except.error (LzError.config "A valid axis identifier is required")
  | some a =>
    if a = "x" ∨ a = "y1" ∨ a = "y2" then
      match axisConfigOf L a with
      | none => Except.error (LzError.config "No field configured for this axis")
      | some cfg =>
        match cfg.field with
        | none => Except.error (LzError.config "No field configured for this axis")
        | some f =>
          if L.data.isEmpty then
            match cfg.min_extent with
            | none => Except.ok Extent.empty
            | some (lo, hi) => Except.ok (applyFloorCeil cfg (Extent.range lo hi))
          else
            match allNums (L.data.map (fun r => recordGet r f)) with
            | none => Except.ok Extent.nonNumeric
            | some qs =>
              Except.ok (applyFloorCeil cfg
                (Extent.range (applyMinExtent cfg (bufferedBounds cfg qs)).1
                              (applyMinExtent cfg (bufferedBounds cfg qs)).2))
    else Except.error (LzError.config "A valid axis identifier is required")

/-! ## Element state tracker (spec §4.3) -/

/-- Modelled from the spec: the per-layer interaction state — the three
named status flags, each an ordered set of element identities (spec §3
"Status Flags"), plus the set of identities currently owning a tooltip
descriptor (the keys of the layer's `tooltips` mapping, spec §4.3). -/
structure LayerState where
  highlighted : List String
  selected : List String
  has_tooltip : List String
  tooltips : List String
  deriving DecidableEq

/-- The layer state with no element in any status and no tooltips. -/
def emptyState : LayerState :=
  { highlighted := [], selected := [], has_tooltip := [], tooltips := [] }

/-- The named status flags (spec §3 "Status Flags"). -/
inductive Flag where
  | highlighted : Flag
  | selected : Flag
  | has_tooltip : Flag
  deriving DecidableEq

/-- The ordered identity set held by a flag. -/
def getFlag (st : LayerState) : Flag → List String
  | Flag.highlighted => st.highlighted
  | Flag.selected => st.selected
  | Flag.has_tooltip => st.has_tooltip

/-- Replace the ordered identity set held by a flag. -/
def setFlag (st : LayerState) (f : Flag) (ids : List String) : LayerState :=
  match f with
  | Flag.highlighted => { st with highlighted := ids }
  | Flag.selected => { st with selected := ids }
  | Flag.has_tooltip => { st with has_tooltip := ids }

/-- Idempotent, order-preserving insertion into a status flag's ordered
set: an identity appears at most once per flag (spec §3 invariant). -/
def addUnique (l : List String) (id : String) : List String :=
  if id ∈ l then l else l ++ [id]

/-- Modelled from the spec: `setStatus(flag, id, active, exclusive)`
(spec §4.3): resolve identity, then add (`active = true`) or remove it
from the named flag's ordered set without duplicating entries; when
`exclusive`, first clear the flag entirely for all other identities. -/
def setElementStatus (st : LayerState) (f : Flag) (id : String)
    (active : Bool) (exclusive : Bool) : LayerState :=
  let st1 := if exclusive then setFlag st f [] else st
  let cur := getFlag st1 f
  setFlag st1 f (if active then addUnique cur id else cur.filter (fun x => x ≠ id))

/-- Convenience wrapper over `setStatus` for the `selected` flag
(spec §4.3). -/
def selectElement (st : LayerState) (id : String) : LayerState :=
  setElementStatus st Flag.selected id true false

/-- Convenience wrapper over `setStatus` for the `highlighted` flag
(spec §4.3). -/
def highlightElement (st : LayerState) (id : String) : LayerState :=
  setElementStatus st Flag.highlighted id true false

/-- Modelled from the spec: `createTooltip` (spec §4.3) — create a
tooltip descriptor keyed by identity (idempotent: calling twice does not
duplicate) and add the identity to `has_tooltip`. -/
def createTooltip (st : LayerState) (id : String) : LayerState :=
  { st with tooltips := addUnique st.tooltips id,
            has_tooltip := addUnique st.has_tooltip id }

/-- Modelled from the spec: `destroyTooltip(recordOrId)` (spec §4.3) —
remove the tooltip descriptor and clear the identity from `has_tooltip`;
must not touch the `selected`/`highlighted` flags. -/
def destroyTooltip (st : LayerState) (id : String) : LayerState :=
  { st with tooltips := st.tooltips.filter (fun x => x ≠ id),
            has_tooltip := st.has_tooltip.filter (fun x => x ≠ id) }

/-- Modelled from the spec: a re-render of the layer.  Interaction state
must survive re-renders (spec §1, §5): the status flags are preserved
unchanged; tooltip descriptors are reinstated exactly for the identities
flagged `has_tooltip`, since tooltip open/close state is tracked through
that flag independently of selection (spec §3 "Status Flags",
regression test `test_datalayer.js` 741–775). -/
def rerender (st : LayerState) : LayerState :=
  { st with tooltips := st.has_tooltip }

/-! ## Layer ordering manager (spec §4.5) -/

/-- Contiguous 0-based `z_index` reassignment from sequence position
(spec §4.5): entry `(id, n + position)`, computed here with an explicit
starting index `n` so the positions stay structural under induction. -/
def reassignZ : List String → Nat → List (String × Nat)
  | [], _ => []
  | id :: rest, n => (id, n) :: reassignZ rest (n + 1)

/-- Modelled from the spec: the container's layer ordering state — the
ordered sequence of layer identifiers together with each member's stored
`z_index` (spec §3 "Layer Order Entry"). -/
structure Container where
  sequence : List String
  zmap : List (String × Nat)
  deriving DecidableEq

/-- The ordering invariant (spec §3, §4.5): every layer's stored
`z_index` is exactly its 0-based position in the sequence. -/
def ContainerWF (c : Container) : Prop :=
  c.zmap = reassignZ c.sequence 0

instance (c : Container) : Decidable (ContainerWF c) := by
  unfold ContainerWF
  infer_instance

/-- The stored `z_index` of a layer id, if any. -/
def zOf (c : Container) (id : String) : Option Nat :=
  List.lookup id c.zmap

/-- Swap the elements at positions `i` and `i + 1`; out-of-range indices
leave the list unchanged. -/
def swapWithNext : List String → Nat → List String
  | x :: y :: rest, 0 => y :: x :: rest
  | x :: rest, Nat.succ n => x :: swapWithNext rest n
  | l, _ => l

/-- JS `Array.prototype.indexOf`: the 0-based position of the first
occurrence of `id`, if any. -/
def seqIdx (id : String) : List String → Option Nat
  | [] => none
  | x :: rest =>
    if x = id then some 0 else Option.map (fun n => n + 1) (seqIdx id rest)

/-- A container rebuilt from a sequence, with every `z_index` reassigned
to match the new positions (0-based, contiguous — spec §4.5). -/
def mkContainer (seq : List String) : Container :=
  { sequence := seq, zmap := reassignZ seq 0 }

/-- Modelled from the spec: `moveUp(id)` (spec §4.5) — swap the target
with its immediate neighbor toward the top of the order sequence (the
end, since larger `z_index` draws later), clamped at the boundary: moving
the topmost layer up is a no-op, not an error.  After any move every
`z_index` is reassigned to match position.  The updated container is the
return value, supporting chained invocation. -/
def moveUp (c : Container) (id : String) : Container :=
  match seqIdx id c.sequence with
  | none => c
  | some i =>
    if i + 1 < c.sequence.length then mkContainer (swapWithNext c.sequence i) else c

/-- Modelled from the spec: `moveDown(id)` (spec §4.5) — swap the target
with its immediate neighbor toward the bottom of the order sequence,
clamped at the boundary: moving the bottommost layer down is a no-op. -/
def moveDown (c : Container) (id : String) : Container :=
  match seqIdx id c.sequence with
  | none => c
  | some i =>
    match i with
    | 0 => c
    | Nat.succ j => mkContainer (swapWithNext c.sequence j)

/-- JavaScript `Array.prototype.splice(pos, 0, a)`: insert `a` at
position `pos`, appending when `pos` is at or beyond the end. -/
def spliceIn (l : List String) (pos : Nat) (a : String) : List String :=
  l.take pos ++ a :: l.drop pos

/-- Modelled from the spec: initial order assignment for one layer added
to the container (spec §4.5, first bullet).  A layer without an explicit
`z_index` is appended after the layers already declared; an explicit
`z_index` positions the layer by splicing into the current sequence, a
negative value counting from the end of the sequence as it stands before
this insertion (floored at 0).  The interpretation of negative values
follows the repository's own test (`test_datalayer.js` 407–420), which
fixes `-1` against the pre-insertion sequence length.  After each
insertion all `z_index` values are reassigned from position. -/
def addLayer (seq : List String) (id : String) (z : Option Int) : List String :=
  match z with
  | none => seq ++ [id]
  | some zi =>
    let pos : Int := if zi < 0 then max ((seq.length : Int) + zi) 0 else zi
    spliceIn seq pos.toNat id

/-- Modelled from the spec: initial order assignment for a container's
layer list, processed in layout-declaration order (spec §4.5). -/
def assignLayers (layers : List (String × Option Int)) : List String :=
  layers.foldl (fun seq p => addLayer seq p.1 p.2) []

/-- The initial `z_index` of a layer id: its 0-based position in the
assigned sequence (reassigned after every insertion, so equal to the
final position). -/
def zIndexOf (seq : List String) (id : String) : Option Nat :=
  seqIdx id seq

/-! ## TabixUrlSource (`src/esm/ext/lz-tabix-source.js`) -/

/-- The configuration object passed to `TabixUrlSource.parseInit`
(`lz-tabix-source.js` 55–81).  `parser_func` is modelled by its JS
truthiness; `params.overfetch` is the optional overfetch fraction. -/
structure TabixInit where
  parser_func : Bool
  url_data : Option String
  url_tbi : Option String
  overfetch : Option ℚ
  deriving DecidableEq

/-- The adapter state established by a successful `parseInit`. -/
structure TabixSource where
  url_data : String
  url_tbi : String
  overfetch : ℚ
  deriving DecidableEq

/-- JS truthiness of an optional string (absent and `''` are falsy). -/
def strTruthy : Option String → Bool
  | none => false
  | some s => ¬(s = "")

/-- `TabixUrlSource.parseInit` (`lz-tabix-source.js` 55–81): requires
`parser_func` and `url_data`; defaults `url_tbi` to `url_data + '.tbi'`;
sets `_overfetch` to `params.overfetch || 0` and throws unless it lies in
`[0, 1]`. -/
def parseInit (init : TabixInit) : Except String TabixSource :=
  if ¬(init.parser_func ∧ strTruthy init.url_data) then
    Except.error "Tabix source is missing required configuration options"
  else
    let url := init.url_data.getD ""
    let tbi :=
      match init.url_tbi with
      | some t => if t = "" then url ++ ".tbi" else t
      | none => url ++ ".tbi"
    let ovf : ℚ :=
      match init.overfetch with
      | some q => if q = 0 then 0 else q
      | none => 0
    if ovf < 0 ∨ ovf > 1 then
      Except.error "Overfetch must be specified as a fraction (0-1) of the requested region size"
    else
      Except.ok { url_data := url, url_tbi := tbi, overfetch := ovf }

/-- The plot state consumed by `fetchRequest`: a genomic region. -/
structure RegionState where
  chr : String
  start : ℚ
  stop : ℚ
  deriving DecidableEq

/-- The query region computed by `TabixUrlSource.fetchRequest`
(`lz-tabix-source.js` 83–101): `extra = _overfetch * (end - start)`;
the reader is asked for `[start - extra, end + extra]`.  (`stop` models
the JS `state.end` field; the asynchronous reader plumbing is out of
scope.) -/
def fetchRegion (src : TabixSource) (state : RegionState) : ℚ × ℚ :=
  let extra := src.overfetch * (state.stop - state.start)
  (state.start - extra, state.stop + extra)

/-! ## Concrete fixtures used by witnesses

Scale functions standing in for the registered `if` and `categorical_bin`
functions exercised by `test_datalayer.js` (the registry is external to
the core; these are test doubles in the spirit of those tests). -/

/-- A test double for the registered `if` scale function: returns the
`then` parameter when the input equals `field_value` (and is defined),
else `null`. -/
def demoIf : ScaleFn := fun params input _ =>
  match input with
  | ScaleInput.val v =>
    if v = recordGet params "field_value" ∧ ¬(v = JsVal.undef) then recordGet params "then"
    else JsVal.null
  | ScaleInput.whole _ => JsVal.null

/-- A test double for the registered `categorical_bin` scale function,
with the category/value pairs of the `test_datalayer.js` fixture. -/
def demoBin : ScaleFn := fun _ input _ =>
  match input with
  | ScaleInput.val (JsVal.str "lion") => JsVal.str "dorothy"
  | ScaleInput.val (JsVal.str "tiger") => JsVal.str "toto"
  | ScaleInput.val (JsVal.str "bear") => JsVal.str "scarecrow"
  | _ => JsVal.null

/-- A registry holding the two test-double scale functions. -/
def demoRegistry : String → Option ScaleFn := fun n =>
  if n = "if" then some demoIf
  else if n = "categorical_bin" then some demoBin
  else none

/-- A layer with the demo registry and no annotations. -/
def demoLayer : Layer :=
  { id_field := "id", annotations := [], registry := demoRegistry }

/-- The `categorical_bin` rule of the list-iteration test fixture. -/
def ruleBin : ScaleEntry := ScaleEntry.rule "categorical_bin" (some "test") []

/-- A layer with an annotation `some_field = true` for identity `b`,
conflicting with a real data field (`test_datalayer.js` 839–853). -/
def annLayer : Layer :=
  { id_field := "id", annotations := [("b", [("some_field", JsVal.bool true)])],
    registry := demoRegistry }

/-- The record whose real field `some_field = false` conflicts with the
`annLayer` annotation. -/
def annRecord : Record := [("id", JsVal.str "b"), ("some_field", JsVal.bool false)]

/-- Records `{x: q}` for a list of numbers, as in the extent tests. -/
def mkx (qs : List ℚ) : List Record := qs.map (fun q => [("x", JsVal.num q)])

/-- A layer exposing one configuration on the x axis and no y axes. -/
def mkXLayer (cfg : AxisConfig) (data : List Record) : ExtentLayer :=
  { x_axis := some cfg, y1_axis := none, y2_axis := none, data := data }

/-- An axis configuration with only a field and buffers set. -/
def cfgBuffers (f : String) (lb ub : Option ℚ) : AxisConfig :=
  { field := some f, lower_buffer := lb, upper_buffer := ub,
    min_extent := none, floor := none, ceiling := none }

/-- An axis configuration with a field, buffers and a minimum extent. -/
def cfgMinExtent (f : String) (lb ub : Option ℚ) (lo hi : ℚ) : AxisConfig :=
  { field := some f, lower_buffer := lb, upper_buffer := ub,
    min_extent := some (lo, hi), floor := none, ceiling := none }

/-- The ceiling fixture of `test_datalayer.js` 346–359: `min_extent
[0, 10]`, `upper_buffer 0.8`, `ceiling 5`. -/
def cfgCeil : AxisConfig :=
  { field := some "x", lower_buffer := none, upper_buffer := some (8/10),
    min_extent := some (0, 10), floor := none, ceiling := some 5 }

/-- The floor fixture of `test_datalayer.js` 331–345: `min_extent
[6, 10]`, `lower_buffer 0.5`, `floor 0`. -/
def cfgFloor : AxisConfig :=
  { field := some "x", lower_buffer := some (1/2), upper_buffer := none,
    min_extent := some (6, 10), floor := some 0, ceiling := none }

/-- `cfgFloor` with its floor removed (to exhibit the pre-floor bound). -/
def cfgFloorless : AxisConfig :=
  { field := some "x", lower_buffer := some (1/2), upper_buffer := none,
    min_extent := some (6, 10), floor := none, ceiling := none }

/-- A floor above the whole data range (shows bounds are not re-validated). -/
def cfgFloorHigh : AxisConfig :=
  { field := some "x", lower_buffer := none, upper_buffer := none,
    min_extent := none, floor := some 10, ceiling := none }

/-- An axis configuration stripped of its floor and ceiling. -/
def stripFloorCeil (cfg : AxisConfig) : AxisConfig :=
  { cfg with floor := none, ceiling := none }

/-! ## Helper lemmas -/

theorem resolveList_all_nil (L : Layer) (r : Record) (idx : Nat) :
    ∀ es : List ScaleEntry,
      (∀ e ∈ es, ∃ v, resolveEntry L e r idx = Except.ok v ∧ isNil v = true) →
      resolveList L es r idx = Except.ok JsVal.undef := by
  intro es h
  induction es with
  | nil => rfl
  | cons e rest ih =>
    obtain ⟨v, hv, hnil⟩ := h e (List.mem_cons_self e rest)
    have hrest := ih (fun e2 he2 => h e2 (List.mem_cons_of_mem e he2))
    simp only [resolveList, hv, hnil, if_true]
    exact hrest

theorem getAxisExtent_x_eq (cfg : AxisConfig) (data : List Record) (f : String)
    (hf : cfg.field = some f) :
    getAxisExtent (mkXLayer cfg data) (some "x") =
      if data.isEmpty then
        match cfg.min_extent with
        | none => Except.ok Extent.empty
        | some (lo, hi) => Except.ok (applyFloorCeil cfg (Extent.range lo hi))
      else
        match allNums (data.map (fun r => recordGet r f)) with
        | none => Except.ok Extent.nonNumeric
        | some qs =>
          Except.ok (applyFloorCeil cfg
            (Extent.range (applyMinExtent cfg (bufferedBounds cfg qs)).1
                          (applyMinExtent cfg (bufferedBounds cfg qs)).2)) := by
  simp [getAxisExtent, axisConfigOf, mkXLayer, hf]

theorem seqIdx_append_notin (a : List String) (x : String) (t : List String)
    (h : ∀ z ∈ a, z ≠ x) :
    seqIdx x (a ++ x :: t) = some a.length := by
  induction a with
  | nil => simp [seqIdx]
  | cons b rest ih =>
    have hb : b ≠ x := h b (List.mem_cons_self b rest)
    have ih2 := ih (fun z hz => h z (List.mem_cons_of_mem b hz))
    simp [seqIdx, hb, ih2]

theorem swapWithNext_append (a : List String) (x y : String) (b : List String) :
    swapWithNext (a ++ x :: y :: b) a.length = a ++ y :: x :: b := by
  induction a with
  | nil => rfl
  | cons c rest ih => simp [swapWithNext, ih]

theorem reassignZ_lookup (seq : List String) (id : String) :
    ∀ n : Nat, id ∈ seq →
      ∃ i, List.lookup id (reassignZ seq n) = some (n + i) ∧ seq.get? i = some id := by
  induction seq with
  | nil =>
    intro n h
    cases h
  | cons a rest ih =>
    intro n h
    by_cases ha : id = a
    · refine ⟨0, ?_, ?_⟩
      · simp [reassignZ, List.lookup, ha]
      · subst ha
        rfl
    · have hmem : id ∈ rest := by
        cases h with
        | head => exact absurd rfl ha
        | tail _ h2 => exact h2
      obtain ⟨i, hl, hg⟩ := ih (n + 1) hmem
      refine ⟨i + 1, ?_, ?_⟩
      · have hbe : (id == a) = false := by
          simp [ha]
        have : List.lookup id (reassignZ (a :: rest) n) = List.lookup id (reassignZ rest (n + 1)) := by
          simp [reassignZ, List.lookup, hbe]
        rw [this, hl]
        congr 1
        omega
      · simpa using hg

/-! ## Claim theorems -/

/-- C1: for every scalable-parameter spec that is an ordered list,
`resolveScalableParameter` evaluates entries left to right (string
entries in the list are literals — they resolve to themselves with no
field lookup — and rule entries are resolved recursively via
`resolveEntry`) and returns the first result that is not
`null`/`undefined`; if every entry resolves to `null`/`undefined`, the
result is `undefined`. -/
theorem claim1_resolve_list_left_to_right
    (L : Layer) (r : Record) (idx : Nat) (e : ScaleEntry) (es : List ScaleEntry) :
    resolveScalableParameter L (ScaleSpec.listSpec []) r idx = Except.ok JsVal.undef
    ∧ (∀ s rest, resolveScalableParameter L
        (ScaleSpec.listSpec (ScaleEntry.lit (JsVal.str s) :: rest)) r idx
        = Except.ok (JsVal.str s))
    ∧ (∀ v, resolveEntry L e r idx = Except.ok v → isNil v = false →
        resolveScalableParameter L (ScaleSpec.listSpec (e :: es)) r idx = Except.ok v)
    ∧ (∀ v, resolveEntry L e r idx = Except.ok v → isNil v = true →
        resolveScalableParameter L (ScaleSpec.listSpec (e :: es)) r idx
          = resolveScalableParameter L (ScaleSpec.listSpec es) r idx)
    ∧ (∀ es2 : List ScaleEntry,
        (∀ e2 ∈ es2, ∃ v, resolveEntry L e2 r idx = Except.ok v ∧ isNil v = true) →
        resolveScalableParameter L (ScaleSpec.listSpec es2) r idx = Except.ok JsVal.undef) := by
  refine ⟨rfl, ?_, ?_, ?_, ?_⟩
  · intro s rest
    simp [resolveScalableParameter, resolveList, resolveEntry, isNil]
  · intro v hv hnn
    simp [resolveScalableParameter, resolveList, hv, hnn]
  · intro v hv hn
    simp only [resolveScalableParameter, resolveList, hv, hn, if_true]
  · intro es2 h
    exact resolveList_all_nil L r idx es2 h

/-- Witness for C1, at the list-iteration fixture of `test_datalayer.js`
157–183: the record `{test: 'tiger'}` makes the `categorical_bin` rule
the first non-null entry, so the list resolves to `'toto'` before ever
reaching the `'munchkin'` literal. -/
theorem claim1_witness :
    resolveScalableParameter demoLayer
      (ScaleSpec.listSpec [ruleBin, ScaleEntry.lit (JsVal.str "munchkin")])
      [("test", JsVal.str "tiger")] 0 = Except.ok (JsVal.str "toto") := by
  have h := (claim1_resolve_list_left_to_right demoLayer
    [("test", JsVal.str "tiger")] 0 ruleBin [ScaleEntry.lit (JsVal.str "munchkin")]).2.2.1
  exact h (JsVal.str "toto") rfl rfl

/-- C2: field lookup during resolution consults the record's own fields
first; only when the referenced field is `undefined` on the record does
it fall back to the layer's annotation-store entry for that record's
identity; a present (even falsy, e.g. `false`) real field always takes
precedence over an annotation of the same name.  The last conjunct shows
this lookup is what a rule's scale function receives during
resolution. -/
theorem claim2_real_field_precedence (L : Layer) (r : Record) (f : String) :
    (recordGet r f ≠ JsVal.undef → fieldLookup L r f = recordGet r f)
    ∧ (recordGet r f = JsVal.undef →
        fieldLookup L r f = annotFieldGet L (getElementId L r) f)
    ∧ (recordGet r f = JsVal.bool false → fieldLookup L r f = JsVal.bool false)
    ∧ (∀ name g params idx, L.registry name = some g →
        resolveEntry L (ScaleEntry.rule name (some f) params) r idx
          = Except.ok (g params (ScaleInput.val (fieldLookup L r f)) idx)) := by
  refine ⟨?_, ?_, ?_, ?_⟩
  · intro h
    unfold fieldLookup
    cases hv : recordGet r f <;> simp_all
  · intro h
    unfold fieldLookup
    rw [h]
  · intro h
    unfold fieldLookup
    rw [h]
  · intro name g params idx hreg
    simp only [resolveEntry, hreg]

/-- Witness for C2, at the precedence fixture of `test_datalayer.js`
839–853: identity `b` carries the annotation `some_field = true` while
the record's real field is `some_field = false`; lookup resolves to the
real `false`. -/
theorem claim2_witness :
    fieldLookup annLayer annRecord "some_field" = JsVal.bool false := by
  exact (claim2_real_field_precedence annLayer annRecord "some_field").2.2.1 rfl

/-- C3: for every element, `destroyTooltip` removes the tooltip
descriptor and removes the element's identity from the `has_tooltip`
status flag while leaving the `selected` and `highlighted` flags
unchanged (the element stays selected), and this separation of tooltip
state from selection state persists across a subsequent re-render. -/
theorem claim3_destroyTooltip_keeps_selection (st : LayerState) (id : String) :
    (destroyTooltip st id).selected = st.selected
    ∧ (destroyTooltip st id).highlighted = st.highlighted
    ∧ id ∉ (destroyTooltip st id).has_tooltip
    ∧ id ∉ (destroyTooltip st id).tooltips
    ∧ (rerender (destroyTooltip st id)).selected = st.selected
    ∧ (rerender (destroyTooltip st id)).highlighted = st.highlighted
    ∧ id ∉ (rerender (destroyTooltip st id)).has_tooltip
    ∧ id ∉ (rerender (destroyTooltip st id)).tooltips
    ∧ (id ∈ st.selected → id ∈ (rerender (destroyTooltip st id)).selected) := by
  refine ⟨rfl, rfl, ?_, ?_, rfl, rfl, ?_, ?_, ?_⟩
  · simp [destroyTooltip, List.mem_filter]
  · simp [destroyTooltip, List.mem_filter]
  · simp [rerender, destroyTooltip, List.mem_filter]
  · simp [rerender, destroyTooltip, List.mem_filter]
  · intro h
    exact h

/-- Witness for C3, at the regression-test scenario of
`test_datalayer.js` 741–775: select element `a` (which creates its
tooltip), close the tooltip, re-render — the point remains selected and
the tooltip stays destroyed. -/
theorem claim3_witness :
    "a" ∈ (rerender (destroyTooltip (createTooltip (selectElement emptyState "a") "a") "a")).selected
    ∧ "a" ∉ (rerender (destroyTooltip (createTooltip (selectElement emptyState "a") "a") "a")).has_tooltip := by
  constructor
  · exact (claim3_destroyTooltip_keeps_selection
      (createTooltip (selectElement emptyState "a") "a") "a").2.2.2.2.2.2.2.2 (by decide)
  · exact (claim3_destroyTooltip_keeps_selection
      (createTooltip (selectElement emptyState "a") "a") "a").2.2.2.2.2.2.1

/-- C4: `moveUp` and `moveDown` swap the target layer with its immediate
neighbor in the container's order sequence, are no-ops (not errors) when
the target is already topmost (`moveUp`, last in the sequence) or
bottommost (`moveDown`, first in the sequence), return a container that
supports chained invocation (conjunct 7 chains two calls at the top
boundary), and after every move each layer's `z_index` equals its
0-based, contiguous position in the sequence (`ContainerWF`), so that
`sequence[z_index(id)] = id` holds for all ids (conjunct 6). -/
theorem claim4_move_layers (c : Container) (id : String) :
    (∀ a, c.sequence = a ++ [id] → (∀ z ∈ a, z ≠ id) → moveUp c id = c)
    ∧ (∀ rest, c.sequence = id :: rest → moveDown c id = c)
    ∧ (∀ a y b, c.sequence = a ++ id :: y :: b → (∀ z ∈ a, z ≠ id) →
        moveUp c id = mkContainer (a ++ y :: id :: b))
    ∧ (∀ a x b, c.sequence = a ++ x :: id :: b → (∀ z ∈ a, z ≠ id) → x ≠ id →
        moveDown c id = mkContainer (a ++ id :: x :: b))
    ∧ (ContainerWF c → ContainerWF (moveUp c id) ∧ ContainerWF (moveDown c id))
    ∧ (ContainerWF c → ∀ id2 ∈ c.sequence,
        ∃ i, zOf c id2 = some i ∧ c.sequence.get? i = some id2)
    ∧ (∀ a, c.sequence = a ++ [id] → (∀ z ∈ a, z ≠ id) →
        moveUp (moveUp c id) id = c) := by
  have hup : ∀ a, c.sequence = a ++ [id] → (∀ z ∈ a, z ≠ id) → moveUp c id = c := by
    intro a hseq hne
    have hidx : seqIdx id c.sequence = some a.length := by
      rw [hseq]
      exact seqIdx_append_notin a id [] hne
    have hlen : ¬(a.length + 1 < c.sequence.length) := by
      rw [hseq]
      simp
    simp only [moveUp, hidx, if_neg hlen]
  refine ⟨hup, ?_, ?_, ?_, ?_, ?_, ?_⟩
  · intro rest hseq
    have hidx : seqIdx id c.sequence = some 0 := by
      rw [hseq]
      exact seqIdx_append_notin [] id rest (by simp)
    simp only [moveDown, hidx]
  · intro a y b hseq hne
    have hlen2 : a.length + 1 < (a ++ id :: y :: b).length := by
      simp only [List.length_append, List.length_cons]
      omega
    unfold moveUp
    rw [hseq, seqIdx_append_notin a id (y :: b) hne]
    simp [hlen2, swapWithNext_append]
  · intro a x b hseq hne hx
    have hne2 : ∀ z ∈ a ++ [x], z ≠ id := by
      intro z hz
      rcases List.mem_append.mp hz with h1 | h1
      · exact hne z h1
      · simp at h1
        subst h1
        exact hx
    have hidx2 : seqIdx id (a ++ x :: id :: b) = some (a.length + 1) := by
      have h1 := seqIdx_append_notin (a ++ [x]) id b hne2
      simpa using h1
    unfold moveDown
    rw [hseq, hidx2]
    simp [swapWithNext_append]
  · intro hwf
    constructor
    · unfold moveUp
      cases hidx : seqIdx id c.sequence with
      | none => exact hwf
      | some i =>
        by_cases hlen : i + 1 < c.sequence.length
        · simp only [if_pos hlen]
          rfl
        · simp only [if_neg hlen]
          exact hwf
    · unfold moveDown
      cases hidx : seqIdx id c.sequence with
      | none => exact hwf
      | some i =>
        cases i with
        | zero => exact hwf
        | succ j => rfl
  · intro hwf id2 hmem
    obtain ⟨i, hl, hg⟩ := reassignZ_lookup c.sequence id2 0 hmem
    refine ⟨i, ?_, hg⟩
    unfold zOf
    rw [hwf, hl]
    simp
  · intro a hseq hne
    rw [hup a hseq hne, hup a hseq hne]

/-- Characterization of `getAxisExtent` for a min-extent configuration
with no floor/ceiling configured. -/
theorem cfgMinExtent_extent (f : String) (lb ub : Option ℚ) (lo hi : ℚ) (data : List Record) :
    getAxisExtent (mkXLayer (cfgMinExtent f lb ub lo hi) data) (some "x")
      = if data.isEmpty then Except.ok (Extent.range lo hi)
        else
          match allNums (data.map (fun r => recordGet r f)) with
          | none => Except.ok Extent.nonNumeric
          | some qs =>
            Except.ok (Extent.range
              (min (bufferedBounds (cfgMinExtent f lb ub lo hi) qs).1 lo)
              (max (bufferedBounds (cfgMinExtent f lb ub lo hi) qs).2 hi)) := by
  rw [getAxisExtent_x_eq (cfgMinExtent f lb ub lo hi) data f rfl]
  by_cases hd : data.isEmpty
  · simp [hd, cfgMinExtent, applyFloorCeil]
  · simp only [if_neg hd]
    cases h : allNums (data.map (fun r => recordGet r f)) with
    | none => rfl
    | some qs => simp [cfgMinExtent, applyFloorCeil, applyMinExtent, rmin_eq, rmax_eq]

/-- Counterexample to C5 as stated: the claim quantifies over *every*
axis configuration with a `min_extent`, but a configured ceiling is
applied afterwards and can make the extent narrower than `[lo, hi]`.
At the repository's own fixture (`test_datalayer.js` 346–359: data
`[3, 4, 5, 6]`, `min_extent = [0, 10]`, `upper_buffer = 0.8`,
`ceiling = 5`) the result is `[0, 5]`, not
`[min(buffered_min, 0), max(buffered_max, 10)] = [0, 10]`, and `5 < 10`
shows the result is narrower than `[0, 10]`. -/
theorem claim5_counterexample :
    getAxisExtent (mkXLayer cfgCeil (mkx [3, 4, 5, 6])) (some "x")
      = Except.ok (Extent.range 0 5)
    ∧ bufferedBounds cfgCeil [3, 4, 5, 6] = (3, 42/5)
    ∧ Extent.range 0 5 ≠ Extent.range (min 3 0) (max (42/5) 10)
    ∧ (5 : ℚ) < 10 := by
  refine ⟨?_, ?_, ?_, by norm_num⟩
  · rw [getAxisExtent_x_eq cfgCeil (mkx [3, 4, 5, 6]) "x" rfl]
    norm_num [mkx, allNums, recordGet, List.lookup, bufferedBounds, listMin, listMax,
      rmin_eq, rmax_eq, applyMinExtent, applyFloorCeil, cfgCeil, min_def, max_def]
  · norm_num [bufferedBounds, listMin, listMax, rmin_eq, rmax_eq, cfgCeil,
      min_def, max_def, Prod.ext_iff]
  · have h1 : (min (3 : ℚ) 0) = 0 := by norm_num
    have h2 : (max (42/5 : ℚ) 10) = 10 := by norm_num
    rw [h1, h2]
    simp only [ne_eq, Extent.range.injEq, not_and]
    intro h0
    norm_num

/-- C5 (amended): for every axis configuration with
`min_extent = [lo, hi]` **and no floor/ceiling configured**, the extent
returned by `getAxisExtent` satisfies `final_min = min(buffered_min, lo)`
and `final_max = max(buffered_max, hi)` — the result is never narrower
than `[lo, hi]`, the configured minimum extent only ever widens the
window — and when the record list is empty the result is exactly
`[lo, hi]`.  (The amendment excludes floor/ceiling, which are applied
afterwards and can narrow the result — see `claim5_counterexample`.) -/
theorem claim5_min_extent_only_widens
    (f : String) (lb ub : Option ℚ) (lo hi : ℚ) (data : List Record) :
    getAxisExtent (mkXLayer (cfgMinExtent f lb ub lo hi) []) (some "x")
      = Except.ok (Extent.range lo hi)
    ∧ (∀ m M, getAxisExtent (mkXLayer (cfgMinExtent f lb ub lo hi) data) (some "x")
        = Except.ok (Extent.range m M) → m ≤ lo ∧ hi ≤ M)
    ∧ (∀ qs, allNums (data.map (fun r => recordGet r f)) = some qs → ¬(data = []) →
        getAxisExtent (mkXLayer (cfgMinExtent f lb ub lo hi) data) (some "x")
          = Except.ok (Extent.range
              (min (bufferedBounds (cfgMinExtent f lb ub lo hi) qs).1 lo)
              (max (bufferedBounds (cfgMinExtent f lb ub lo hi) qs).2 hi))) := by
  refine ⟨?_, ?_, ?_⟩
  · rw [cfgMinExtent_extent f lb ub lo hi []]
    rfl
  · intro m M h
    rw [cfgMinExtent_extent f lb ub lo hi data] at h
    by_cases hd : data.isEmpty
    · rw [if_pos hd] at h
      simp only [Except.ok.injEq, Extent.range.injEq] at h
      obtain ⟨h1, h2⟩ := h
      subst h1
      subst h2
      exact ⟨le_refl _, le_refl _⟩
    · rw [if_neg hd] at h
      cases hq : allNums (data.map (fun r => recordGet r f)) with
      | none =>
        rw [hq] at h
        simp at h
      | some qs =>
        rw [hq] at h
        simp only [Except.ok.injEq, Extent.range.injEq] at h
        obtain ⟨h1, h2⟩ := h
        exact ⟨h1 ▸ min_le_right _ _, h2 ▸ le_max_right _ _⟩
  · intro qs hq hd
    rw [cfgMinExtent_extent f lb ub lo hi data]
    have hne : data.isEmpty = false := by
      cases data with
      | nil => exact absurd rfl hd
      | cons r rest => rfl
    rw [hne]
    simp [hq]

/-- Witness for C5 (amended), at the fixture of `test_datalayer.js`
288–303: data `[1, 2, 3, 4]` with `min_extent = [0, 3]` gives `[0, 4]`. -/
theorem claim5_witness :
    getAxisExtent (mkXLayer (cfgMinExtent "x" none none 0 3) (mkx [1, 2, 3, 4])) (some "x")
      = Except.ok (Extent.range 0 4) := by
  have h := (claim5_min_extent_only_widens "x" none none 0 3 (mkx [1, 2, 3, 4])).2.2
    [1, 2, 3, 4] (by decide) (by decide)
  rw [h]
  have hb : bufferedBounds (cfgMinExtent "x" none none 0 3) [1, 2, 3, 4] = (1, 4) := by
    norm_num [bufferedBounds, listMin, listMax, rmin_eq, rmax_eq, cfgMinExtent,
      min_def, max_def, Prod.ext_iff]
  rw [hb]
  norm_num

/-- Counterexample to C6 as stated: the claim says a configured floor
yields `final_min = max(previous_min, floor)`, but the repository's own
test (`test_datalayer.js` 331–345) requires floor to *override* the
bound.  At data `[8, 9, 8, 8.5]`, `min_extent = [6, 10]`,
`lower_buffer = 0.5`, `floor = 0`, the pre-floor bound is `6` (second
conjunct, computed by the floorless configuration), the result is
`[0, 10]`, yet `max(6, 0) = 6 ≠ 0`. -/
theorem claim6_counterexample :
    getAxisExtent (mkXLayer cfgFloor (mkx [8, 9, 8, 17/2])) (some "x")
      = Except.ok (Extent.range 0 10)
    ∧ getAxisExtent (mkXLayer cfgFloorless (mkx [8, 9, 8, 17/2])) (some "x")
      = Except.ok (Extent.range 6 10)
    ∧ (0 : ℚ) ≠ max 6 0 := by
  refine ⟨?_, ?_, by norm_num⟩
  · rw [getAxisExtent_x_eq cfgFloor (mkx [8, 9, 8, 17/2]) "x" rfl]
    norm_num [mkx, allNums, recordGet, List.lookup, bufferedBounds, listMin, listMax,
      rmin_eq, rmax_eq, applyMinExtent, applyFloorCeil, cfgFloor, min_def, max_def]
  · rw [getAxisExtent_x_eq cfgFloorless (mkx [8, 9, 8, 17/2]) "x" rfl]
    norm_num [mkx, allNums, recordGet, List.lookup, bufferedBounds, listMin, listMax,
      rmin_eq, rmax_eq, applyMinExtent, applyFloorCeil, cfgFloorless, min_def, max_def]

/-- C6 (amended): floor and ceiling are applied last — after buffering
and `min_extent` widening — as absolute *overrides*: `final_min = floor`
when floor is set and `final_max = ceiling` when ceiling is set (the
spec's `max`/`min` clamp formulas do not match the code — see
`claim6_counterexample`); the calculator does not re-validate that
`final_min ≤ final_max` after this step (last conjunct: a floor above
the data range yields the inverted extent `[10, 4]`).  The first
conjunct states "applied last" precisely: the extent under the full
configuration equals the floor/ceiling post-processing of the extent
computed with floor and ceiling removed. -/
theorem claim6_floor_ceiling_applied_last
    (cfg : AxisConfig) (data : List Record) (fl ce m M : ℚ) :
    getAxisExtent (mkXLayer cfg data) (some "x")
      = Except.map (applyFloorCeil cfg)
          (getAxisExtent (mkXLayer (stripFloorCeil cfg) data) (some "x"))
    ∧ applyFloorCeil { cfg with floor := some fl, ceiling := some ce } (Extent.range m M)
        = Extent.range fl ce
    ∧ applyFloorCeil { cfg with floor := some fl, ceiling := none } (Extent.range m M)
        = Extent.range fl M
    ∧ applyFloorCeil { cfg with floor := none, ceiling := some ce } (Extent.range m M)
        = Extent.range m ce
    ∧ getAxisExtent (mkXLayer cfgFloorHigh (mkx [3, 4])) (some "x")
        = Except.ok (Extent.range 10 4) := by
  have hinv : getAxisExtent (mkXLayer cfgFloorHigh (mkx [3, 4])) (some "x")
      = Except.ok (Extent.range 10 4) := by
    rw [getAxisExtent_x_eq cfgFloorHigh (mkx [3, 4]) "x" rfl]
    norm_num [mkx, allNums, recordGet, List.lookup, bufferedBounds, listMin, listMax,
      rmin_eq, rmax_eq, applyMinExtent, applyFloorCeil, cfgFloorHigh, min_def, max_def]
  refine ⟨?_, rfl, rfl, rfl, hinv⟩
  cases hf : cfg.field with
  | none =>
    have hf2 : (stripFloorCeil cfg).field = none := by
      simp [stripFloorCeil, hf]
    simp [getAxisExtent, axisConfigOf, mkXLayer, hf, hf2, Except.map]
  | some f =>
    have hf2 : (stripFloorCeil cfg).field = some f := by
      simp [stripFloorCeil, hf]
    rw [getAxisExtent_x_eq cfg data f hf, getAxisExtent_x_eq (stripFloorCeil cfg) data f hf2]
    by_cases hd : data.isEmpty
    · simp only [if_pos hd]
      cases hme : cfg.min_extent with
      | none => simp [stripFloorCeil, hme, Except.map, applyFloorCeil]
      | some p =>
        obtain ⟨lo, hi⟩ := p
        simp [stripFloorCeil, hme, Except.map, applyFloorCeil]
    · simp only [if_neg hd]
      cases hq : allNums (data.map (fun r => recordGet r f)) with
      | none => simp [Except.map, applyFloorCeil]
      | some qs =>
        simp [stripFloorCeil, Except.map, applyFloorCeil, applyMinExtent, bufferedBounds]

/-- Characterization of `getAxisExtent` for a buffers-only configuration
on non-empty data. -/
theorem cfgBuffers_extent (f : String) (lb ub : Option ℚ) (data : List Record)
    (hd : ¬(data = [])) :
    getAxisExtent (mkXLayer (cfgBuffers f lb ub) data) (some "x")
      = match allNums (data.map (fun r => recordGet r f)) with
        | none => Except.ok Extent.nonNumeric
        | some qs =>
          Except.ok (Extent.range
            (listMin qs - (lb.getD 0) * (listMax qs - listMin qs))
            (listMax qs + (ub.getD 0) * (listMax qs - listMin qs))) := by
  rw [getAxisExtent_x_eq (cfgBuffers f lb ub) data f rfl]
  have hne : data.isEmpty = false := by
    cases data with
    | nil => exact absurd rfl hd
    | cons r rest => rfl
  rw [hne]
  simp only [Bool.false_eq_true, if_false]
  cases hq : allNums (data.map (fun r => recordGet r f)) with
  | none => rfl
  | some qs => simp [cfgBuffers, applyFloorCeil, applyMinExtent, bufferedBounds]

/-- C7: for every non-empty record list whose extracted field values are
all numeric, the buffered extent is a pure function of
`(data_min, data_max, lower_buffer, upper_buffer)` (conjunct 2: any two
data sets with the same minimum and maximum yield the same extent): with
`range = data_max - data_min`, `getAxisExtent` returns
`[data_min - lower_buffer*range, data_max + upper_buffer*range]`
(buffers default to 0 via `Option.getD`), and when `range = 0` the
buffers produce no change. -/
theorem claim7_buffered_extent_pure
    (f : String) (lb ub : Option ℚ) (data data2 : List Record) (qs qs2 : List ℚ) :
    (allNums (data.map (fun r => recordGet r f)) = some qs → ¬(data = []) →
      getAxisExtent (mkXLayer (cfgBuffers f lb ub) data) (some "x")
        = Except.ok (Extent.range
            (listMin qs - (lb.getD 0) * (listMax qs - listMin qs))
            (listMax qs + (ub.getD 0) * (listMax qs - listMin qs))))
    ∧ (allNums (data.map (fun r => recordGet r f)) = some qs →
       allNums (data2.map (fun r => recordGet r f)) = some qs2 →
       ¬(data = []) → ¬(data2 = []) →
       listMin qs = listMin qs2 → listMax qs = listMax qs2 →
       getAxisExtent (mkXLayer (cfgBuffers f lb ub) data) (some "x")
         = getAxisExtent (mkXLayer (cfgBuffers f lb ub) data2) (some "x"))
    ∧ (allNums (data.map (fun r => recordGet r f)) = some qs → ¬(data = []) →
       listMin qs = listMax qs →
       getAxisExtent (mkXLayer (cfgBuffers f lb ub) data) (some "x")
         = Except.ok (Extent.range (listMin qs) (listMax qs))) := by
  have hmain : ∀ d : List Record, ∀ q : List ℚ,
      allNums (d.map (fun r => recordGet r f)) = some q → ¬(d = []) →
      getAxisExtent (mkXLayer (cfgBuffers f lb ub) d) (some "x")
        = Except.ok (Extent.range
            (listMin q - (lb.getD 0) * (listMax q - listMin q))
            (listMax q + (ub.getD 0) * (listMax q - listMin q))) := by
    intro d q hq hd
    rw [cfgBuffers_extent f lb ub d hd, hq]
  refine ⟨hmain data qs, ?_, ?_⟩
  · intro hq hq2 hd hd2 hmin hmax
    rw [hmain data qs hq hd, hmain data2 qs2 hq2 hd2, hmin, hmax]
  · intro hq hd h0
    rw [hmain data qs hq hd, h0]
    ring_nf

/-- Witness for C7, at the fixture of `test_datalayer.js` 249–261:
data `[1, 2, 3, 4]` with `lower_buffer = 0.05` gives `[0.85, 4]`. -/
theorem claim7_witness :
    getAxisExtent (mkXLayer (cfgBuffers "x" (some (5/100)) none) (mkx [1, 2, 3, 4])) (some "x")
      = Except.ok (Extent.range (85/100) 4) := by
  have h := (claim7_buffered_extent_pure "x" (some (5/100)) none
    (mkx [1, 2, 3, 4]) [] [1, 2, 3, 4] []).1 (by decide) (by decide)
  rw [h]
  norm_num [listMin, listMax, rmin_eq, rmax_eq, min_def, max_def]

theorem assignLayers_none_aux (ids : List String) :
    ∀ acc : List String,
      List.foldl (fun seq p => addLayer seq p.1 p.2)
        acc (ids.map (fun i => (i, (none : Option Int)))) = acc ++ ids := by
  induction ids with
  | nil =>
    intro acc
    simp
  | cons i rest ih =>
    intro acc
    have h1 : List.foldl (fun seq p => addLayer seq p.1 p.2) acc
          ((i, (none : Option Int)) :: rest.map (fun j => (j, none)))
        = List.foldl (fun seq p => addLayer seq p.1 p.2) (addLayer acc i none)
            (rest.map (fun j => (j, none))) := rfl
    rw [List.map_cons, h1, ih]
    simp [addLayer]

/-- Counterexample to C8 as stated: the claim reads `z_index = -1` as
"the last position", but the repository's own test
(`test_datalayer.js` 407–420) requires the layout
`[d1, d2, d3, d4(z_index: -1)]` to order as `[d1, d2, d4, d3]` with
`d4` at position 2 — the last position of the four-layer sequence is
held by `d3`, not by the `z_index = -1` layer. -/
theorem claim8_counterexample :
    assignLayers [("d1", none), ("d2", none), ("d3", none), ("d4", some (-1))]
      = ["d1", "d2", "d4", "d3"]
    ∧ zIndexOf ["d1", "d2", "d4", "d3"] "d4" = some 2
    ∧ List.getLast? ["d1", "d2", "d4", "d3"] = some "d3"
    ∧ ¬("d3" = "d4") := by
  refine ⟨by decide, by decide, by decide, by decide⟩

/-- C8 (amended): at initial layer assignment, layers are inserted one at
a time in layout-declaration order; a layer whose layout provides a
negative `z_index` is placed counting from the end of the container's
layer sequence *as it stands before that insertion* (floored at 0), so
`z_index = -1` inserts immediately before the previously-last layer —
second-to-last when it is the final layer declared — not at the last
position; a nonnegative `z_index` splices the layer at that position;
layers without an explicit `z_index` are appended in layout-declaration
order, filling the index slots left after the earlier insertions (each
insertion reassigns every `z_index` from position). -/
theorem claim8_initial_z_assignment (seq : List String) (id x : String) (zi : Int) :
    (addLayer seq id none = seq ++ [id])
    ∧ (∀ ids : List String, assignLayers (ids.map (fun i => (i, none))) = ids)
    ∧ (addLayer (seq ++ [x]) id (some (-1)) = seq ++ [id, x])
    ∧ (0 ≤ zi → addLayer seq id (some zi) = spliceIn seq zi.toNat id)
    ∧ (zi < 0 → addLayer seq id (some zi)
        = spliceIn seq (max ((seq.length : Int) + zi) 0).toNat id)
    ∧ assignLayers [("d1", some 1), ("d2", some 0)] = ["d2", "d1"]
    ∧ zIndexOf (assignLayers [("d1", some 1), ("d2", some 0)]) "d1" = some 1
    ∧ assignLayers [("d1", none), ("d2", none), ("d3", none), ("d4", some (-1))]
        = ["d1", "d2", "d4", "d3"] := by
  refine ⟨rfl, ?_, ?_, ?_, ?_, by decide, by decide, by decide⟩
  · intro ids
    exact assignLayers_none_aux ids []
  · have hpos : (max (((seq ++ [x]).length : Int) + (-1)) 0).toNat = seq.length := by
      simp only [List.length_append, List.length_cons, List.length_nil]
      omega
    have hneg : ((-1 : Int) < 0) := by norm_num
    simp only [addLayer, if_pos hneg, hpos, spliceIn]
    rw [List.take_left, List.drop_left]
  · intro h
    simp only [addLayer, if_neg (not_lt.mpr h)]
  · intro h
    simp only [addLayer, if_pos h]

/-- Witness for C8 (amended), at the explicit-z fixture of
`test_datalayer.js` 397–406: `d1` declared with `z_index = 1` into an
empty container splices at position 1 (clamped to append). -/
theorem claim8_witness :
    addLayer [] "d1" (some 1) = ["d1"] := by
  have h := (claim8_initial_z_assignment [] "d1" "x" 1).2.2.2.1 (by norm_num)
  exact h.trans (by decide)

/-- C9: `getAxisExtent` fails with a `ConfigError` for malformed axis
configuration: for every call where no axis identifier is given, the
identifier is not in the supported set (`x`, `y1`, `y2`), or the named
axis has no field configured (either no configuration object or a
configuration without a `field`), the call returns a synchronous
`ConfigError` rather than an extent. -/
theorem claim9_config_errors (L : ExtentLayer) (a : String) (cfg : AxisConfig) :
    (∃ msg, getAxisExtent L none = Except.error (LzError.config msg))
    ∧ (¬(a = "x" ∨ a = "y1" ∨ a = "y2") →
        ∃ msg, getAxisExtent L (some a) = Except.error (LzError.config msg))
    ∧ (axisConfigOf L a = none →
        ∃ msg, getAxisExtent L (some a) = Except.error (LzError.config msg))
    ∧ (axisConfigOf L a = some cfg → cfg.field = none →
        ∃ msg, getAxisExtent L (some a) = Except.error (LzError.config msg)) := by
  refine ⟨⟨"A valid axis identifier is required", rfl⟩, ?_, ?_, ?_⟩
  · intro h
    refine ⟨"A valid axis identifier is required", ?_⟩
    simp only [getAxisExtent, if_neg h]
  · intro h
    by_cases hv : a = "x" ∨ a = "y1" ∨ a = "y2"
    · refine ⟨"No field configured for this axis", ?_⟩
      simp only [getAxisExtent, if_pos hv, h]
    · refine ⟨"A valid axis identifier is required", ?_⟩
      simp only [getAxisExtent, if_neg hv]
  · intro h hf
    by_cases hv : a = "x" ∨ a = "y1" ∨ a = "y2"
    · refine ⟨"No field configured for this axis", ?_⟩
      simp only [getAxisExtent, if_pos hv, h, hf]
    · refine ⟨"A valid axis identifier is required", ?_⟩
      simp only [getAxisExtent, if_neg hv]

/-- Witness for C9, at the fixture of `test_datalayer.js` 204–218: a
layer whose layout has only an x-axis field throws for a missing
identifier, for the unknown identifier `foo`, and for `y1` (valid
identifier, but no field configured on that axis). -/
theorem claim9_witness :
    (∃ msg, getAxisExtent (mkXLayer (cfgBuffers "x" none none) []) none
      = Except.error (LzError.config msg))
    ∧ (∃ msg, getAxisExtent (mkXLayer (cfgBuffers "x" none none) []) (some "foo")
      = Except.error (LzError.config msg))
    ∧ (∃ msg, getAxisExtent (mkXLayer (cfgBuffers "x" none none) []) (some "y1")
      = Except.error (LzError.config msg)) := by
  refine ⟨?_, ?_, ?_⟩
  · exact (claim9_config_errors (mkXLayer (cfgBuffers "x" none none) []) "foo"
      (cfgBuffers "x" none none)).1
  · exact (claim9_config_errors (mkXLayer (cfgBuffers "x" none none) []) "foo"
      (cfgBuffers "x" none none)).2.1 (by decide)
  · exact (claim9_config_errors (mkXLayer (cfgBuffers "x" none none) []) "y1"
      (cfgBuffers "x" none none)).2.2.1 (by decide)

/-- C10: `TabixUrlSource.parseInit` throws an `Error` whenever the
`overfetch` parameter is less than 0 or greater than 1; for every
accepted configuration, `fetchRequest` queries exactly the widened
region `[start - overfetch*(end - start), end + overfetch*(end - start)]`
(with the accepted `overfetch` equal to the configured parameter,
defaulting to 0 — the requested region unchanged). -/
theorem claim10_tabix_overfetch
    (init : TabixInit) (src : TabixSource) (q : ℚ) (st : RegionState) :
    (init.overfetch = some q → q < 0 ∨ 1 < q →
      ∃ msg, parseInit init = Except.error msg)
    ∧ (parseInit init = Except.ok src →
        src.overfetch = init.overfetch.getD 0
        ∧ 0 ≤ src.overfetch ∧ src.overfetch ≤ 1
        ∧ fetchRegion src st
            = (st.start - src.overfetch * (st.stop - st.start),
               st.stop + src.overfetch * (st.stop - st.start)))
    ∧ (parseInit init = Except.ok src → init.overfetch = none →
        fetchRegion src st = (st.start, st.stop)) := by
  have hmain : parseInit init = Except.ok src →
      src.overfetch = init.overfetch.getD 0
      ∧ 0 ≤ src.overfetch ∧ src.overfetch ≤ 1
      ∧ fetchRegion src st
          = (st.start - src.overfetch * (st.stop - st.start),
             st.stop + src.overfetch * (st.stop - st.start)) := by
    intro hok
    simp only [parseInit] at hok
    split at hok
    · cases hok
    · split at hok
      · cases hok
      · rename_i hcfg hcond
        simp only [Except.ok.injEq] at hok
        subst hok
        push_neg at hcond
        refine ⟨?_, hcond.1, hcond.2, rfl⟩
        cases ho : init.overfetch with
        | none => simp [ho]
        | some p =>
          by_cases hp : p = 0
          · simp [ho, hp]
          · simp [ho, hp]
  refine ⟨?_, hmain, ?_⟩
  · intro hov hbad
    simp only [parseInit]
    split
    · exact ⟨"Tabix source is missing required configuration options", rfl⟩
    · have hq0 : ¬(q = 0) := by
        rcases hbad with h | h
        · intro h0
          rw [h0] at h
          exact absurd h (by norm_num)
        · intro h0
          rw [h0] at h
          exact absurd h (by norm_num)
      have hcond : ((match init.overfetch with
          | some p => if p = 0 then (0 : ℚ) else p
          | none => 0) < 0
          ∨ (match init.overfetch with
          | some p => if p = 0 then (0 : ℚ) else p
          | none => 0) > 1) := by
        rw [hov]
        simp only [if_neg hq0]
        exact hbad
      rw [hov]
      rw [if_pos (by rw [hov] at hcond; exact hcond)]
      exact ⟨"Overfetch must be specified as a fraction (0-1) of the requested region size", rfl⟩
  · intro hok hnone
    obtain ⟨hov, _, _, hreg⟩ := hmain hok
    rw [hreg, hov, hnone]
    simp

/-- Witness for C10: an accepted configuration with `overfetch = 1` and
the region `[100, 200]` queries `[0, 300]`; a configuration with
`overfetch = 2` is rejected. -/
theorem claim10_witness :
    fetchRegion
        { url_data := "https://x/d.gz", url_tbi := "https://x/d.gz.tbi", overfetch := 1 }
        { chr := "1", start := 100, stop := 200 }
      = (0, 300)
    ∧ (∃ msg, parseInit
        { parser_func := true, url_data := some "https://x/d.gz",
          url_tbi := none, overfetch := some 2 } = Except.error msg) := by
  constructor
  · have h := (claim10_tabix_overfetch
      { parser_func := true, url_data := some "https://x/d.gz",
        url_tbi := none, overfetch := some 1 }
      { url_data := "https://x/d.gz", url_tbi := "https://x/d.gz.tbi", overfetch := 1 }
      1 { chr := "1", start := 100, stop := 200 }).2.1 (by decide)
    rw [h.2.2.2]
    norm_num
  · exact (claim10_tabix_overfetch
      { parser_func := true, url_data := some "https://x/d.gz",
        url_tbi := none, overfetch := some 2 }
      { url_data := "", url_tbi := "", overfetch := 0 }
      2 { chr := "1", start := 0, stop := 0 }).1 rfl (by norm_num)

/-- Witness for C4, at the z-index test fixture of `test_datalayer.js`
39–62: moving `layerB` up in `[layerA, layerB, layerC, layerD]` swaps it
with `layerC`, and the reassigned `z_index` of `layerB` is its new
position 2. -/
theorem claim4_witness :
    moveUp (mkContainer ["layerA", "layerB", "layerC", "layerD"]) "layerB"
      = mkContainer ["layerA", "layerC", "layerB", "layerD"]
    ∧ zOf (mkContainer ["layerA", "layerC", "layerB", "layerD"]) "layerB" = some 2 := by
  constructor
  · exact (claim4_move_layers (mkContainer ["layerA", "layerB", "layerC", "layerD"])
      "layerB").2.2.1 ["layerA"] "layerC" ["layerD"] rfl (by decide)
  · decide

end LZ
